import Mathlib

/-!
Verification of CozyFS (an in-memory position-independent file system kept in a
caller-supplied byte buffer) against its natural-language specification.

The definitions below are a shallow embedding of the C sources.  Unless a doc
comment says otherwise, every definition is translated from the latest revision
of the storage engine (the file `src/unnamed/part_000`, which `cozyfs.h`
declares); the older draft `src/cozyfs.c` agrees with it on everything used
here.  Machine integers are modelled as `Nat`/`Int` with explicit wrap-around
where the C type makes overflow observable (the 16-bit handle generation).
Host callbacks (allocator, wake, time) are modelled by explicit parameters or
result fields.  Spots where the C source has undefined behaviour (a NULL
dereference behind a TODO, a missing return statement) are modelled by the
distinct error value `UB`; none of the theorems below depends on those spots.
-/

namespace CozyFS

/-- Error codes from cozyfs.h (returned negated by the API).  `ESYSWAIT` and
`ESYSWAKE` are referenced by the engine source but missing from the header's
enum; they are given the next two values, continuing the header's order. -/
def COZYFS_OK : Int := 0

def COZYFS_EINVAL : Int := 1

def COZYFS_ENOMEM : Int := 2

def COZYFS_ENOENT : Int := 3

def COZYFS_EPERM : Int := 4

def COZYFS_EBUSY : Int := 5

def COZYFS_EISDIR : Int := 6

def COZYFS_ENFILE : Int := 7

def COZYFS_EBADF : Int := 8

def COZYFS_ETIMEDOUT : Int := 9

def COZYFS_ECORRUPT : Int := 10

def COZYFS_ESYSFREE : Int := 11

def COZYFS_ESYSSYNC : Int := 12

def COZYFS_ESYSTIME : Int := 13

def COZYFS_ESYSWAIT : Int := 14

def COZYFS_ESYSWAKE : Int := 15

/-- `COZYFS_ENAMETOOLONG` is returned by `create_user` but, like ESYSWAIT and
ESYSWAKE, is missing from the header's enum; it gets the next value. -/
def COZYFS_ENAMETOOLONG : Int := 16

/-- Marker for source locations whose behaviour is undefined in C (NULL
dereference behind an unfinished TODO, the missing return in
`find_unused_entity`, an out-of-bounds array write).  It is not one of the
CozyFS error codes; no run evaluated in the theorems below reaches it. -/
def UB : Int := 1000

/-- Marker for a defined source branch that lies outside the scope of this
embedding (the tail-page-full branch of `create_user`, which goes through
`allocate_page` — whose own transaction handling is an explicit TODO in the
source); no theorem below reaches it. -/
def NOT_MODELLED : Int := 2000

/-- `COZYFS_MAX_PATCHES` from cozyfs.h: capacity of the per-session patch
table. -/
def COZYFS_MAX_PATCHES : Nat := 128

/-- Byte value of the path separator '/'. -/
def slashByte : Nat := 47

/-- Byte value of '.'. -/
def dotByte : Nat := 46

/-! ## Path parser (`parse_path`)

The C function scans the byte string with an index, cutting it at every '/'.
The embedding mirrors that scan with `takeWhile`/`dropWhile`: the token under
the cursor is the longest '/'-free prefix, and the scan resumes after the
separator.  Paths are byte lists (`List Nat`), components are byte lists, and
the accumulator plays the role of the `comps[num]` array (the C code pops a
component for ".." by decrementing `num`, which is `dropLast` on the list
model because a later push overwrites the abandoned slot). -/

/-- One component step of `parse_path`: "`..`" pops the accumulated stack
(EINVAL when it is empty), "`.`" is dropped, anything else is appended unless
the accumulator already holds `max` components (ENOMEM, "To many
components"). -/
def applyComp (tok : List Nat) (acc : List (List Nat)) (max : Nat) :
    Except Int (List (List Nat)) :=
  if tok = [dotByte, dotByte] then
    if acc.length = 0 then .error (-COZYFS_EINVAL) else .ok acc.dropLast
  else if tok = [dotByte] then .ok acc
  else if acc.length = max then .error (-COZYFS_ENOMEM)
  else .ok (acc ++ [tok])

/-- One iteration of the main loop of `parse_path` (part_000 lines 2091-2122),
entered after the optional leading '/' has been stripped.  The iteration scans
the token before the next '/' (empty token: EINVAL), feeds it to `applyComp`,
and then either stops — at the end of the string, or when only the final '/'
remains (`i == path.size` right after skipping the separator, which is how a
single trailing '/' is accepted) — or hands the remainder after the separator
to the next iteration. -/
def parseChunk (p : List Nat) (acc : List (List Nat)) (max : Nat) :
    Except Int (List (List Nat) × Option (List Nat)) :=
  if p.takeWhile (fun c => c ≠ slashByte) = [] then .error (-COZYFS_EINVAL)
  else
    match applyComp (p.takeWhile (fun c => c ≠ slashByte)) acc max with
    | .error e => .error e
    | .ok acc2 =>
      match p.dropWhile (fun c => c ≠ slashByte) with
      | [] => .ok (acc2, none)
      | [_] => .ok (acc2, none)
      | _ :: b :: rest2 => .ok (acc2, some (b :: rest2))

/-- The driver of the loop: run `parseChunk` iterations until the string is
consumed or an error surfaces.  `parseChunk` consumes at least one byte per
iteration (its token is nonempty and the separator after it is skipped), so
fuel `p.length` always completes; the fuel-0 row answers the leftover-input
case — which that bound makes unreachable — with the empty-token error. -/
def parseLoop : Nat → List Nat → List (List Nat) → Nat → Except Int (List (List Nat))
  | 0, p, acc, max =>
    (match parseChunk p acc max with
     | .error e => .error e
     | .ok (acc2, none) => .ok acc2
     | .ok (_, some _) => .error (-COZYFS_EINVAL))
  | fuel + 1, p, acc, max =>
    (match parseChunk p acc max with
     | .error e => .error e
     | .ok (acc2, none) => .ok acc2
     | .ok (acc2, some rest) => parseLoop fuel rest acc2 max)

/-- `parse_path` (part_000 lines 2082-2125): strip one leading '/' (a bare "/"
yields zero components), then run the scanning loop.  The empty string goes
straight into the loop, whose first token is empty, hence EINVAL. -/
def parse_path (p : List Nat) (max : Nat) : Except Int (List (List Nat)) :=
  match p with
  | [] => parseLoop 0 [] [] max
  | c :: rest =>
    if c = slashByte then
      if rest = [] then .ok [] else parseLoop rest.length rest [] max
    else parseLoop (c :: rest).length (c :: rest) [] max

/-! ## Specification-side path parser

Claim C8 describes `parse_path` as: strip one optional leading '/', split the
remainder on '/', reject an empty component lying between two separators with
EINVAL, drop "." components, pop the stack on ".." (EINVAL past empty), and
fail when more than 32 components accumulate.  The definitions below follow
those words: an explicit split into '/'-separated tokens followed by a fold
over the tokens.  A trailing '/' contributes a final empty token which is not
"between two separators" and is discarded (claim C10 states this acceptance
explicitly).  On the two inputs where the claim's words are silent — the empty
string, and a path that is just "/" — the definition follows the code: the
empty string is rejected with EINVAL and "/" yields zero components. -/

/-- Split a byte string into its '/'-separated tokens (the separators are not
kept; adjacent separators yield empty tokens, and the empty string has the
single empty token). -/
def splitSlash : List Nat → List (List Nat)
  | [] => [[]]
  | c :: rest =>
    if c = slashByte then [] :: splitSlash rest
    else
      match splitSlash rest with
      | [] => [[c]]
      | t :: ts => (c :: t) :: ts

/-- Discard the final token produced by a trailing '/' (the empty token that is
not between two separators). -/
def dropTrailingEmpty (ts : List (List Nat)) : List (List Nat) :=
  if ts.getLast? = some [] then ts.dropLast else ts

/-- Fold the token list through the component rules of the claim: a remaining
empty token (one between two separators) is EINVAL, "." is dropped, ".." pops,
and the component limit is enforced on push. -/
def processToks (max : Nat) (acc : List (List Nat)) :
    List (List Nat) → Except Int (List (List Nat))
  | [] => .ok acc
  | t :: ts =>
    if t = [] then .error (-COZYFS_EINVAL)
    else
      match applyComp t acc max with
      | .error e => .error e
      | .ok acc2 => processToks max acc2 ts

/-- The path parser as described by claim C8 (see the section comment for the
two inputs on which the claim's words are silent). -/
def parsePathSpec (p : List Nat) (max : Nat) : Except Int (List (List Nat)) :=
  match p with
  | [] => .error (-COZYFS_EINVAL)
  | c :: rest =>
    if c = slashByte ∧ rest = [] then .ok []
    else
      processToks max []
        (dropTrailingEmpty (splitSlash (if c = slashByte then rest else c :: rest)))

/-! ## Session state, pointer resolution and the copy-on-write patch table

The `CozyFS` session struct holds the attached buffer, the held lock ticket,
the transaction mode and the patch table (`patch_offs`/`patch_ptrs`,
`patch_count`).  The buffer is modelled as a byte map `mem : Nat → Nat`; the
lock word (a field of the root page) is modelled as a separate field `lock` so
that the buffer-frame statements can quantify over the data bytes.  A C
pointer is either an address inside the attached buffer (`Ptr.buf`, carrying
its byte offset from the base) or an address inside the i-th host-allocated
patch page (`Ptr.patch i b`, carrying the byte offset inside that 4096-byte
page); the two address ranges are disjoint in the C program, which is what the
`Ptr` constructors encode. -/

/-- Transaction mode of a session (the `TRANSACTION_*` enum). -/
inductive TMode where
  | off
  | on
  | onWithLock
  | timeout
deriving DecidableEq

/-- One entry of the session's patch table: the recorded offset
(`patch_offs[i]`) and the 4096-byte host page content (`patch_ptrs[i]`). -/
structure Patch where
  off : Nat
  data : Nat → Nat

/-- A C pointer into the shared buffer or into a patch page. -/
inductive Ptr where
  | buf (off : Nat)
  | patch (i : Nat) (b : Nat)
deriving DecidableEq

/-- The session state (`CozyFS` struct) together with the attached buffer. -/
structure FS where
  mem : Nat → Nat
  lock : Nat
  ticket : Nat
  transaction : TMode
  patches : List Patch

/-- `writable_addr` (part_000 lines 1768-1805).  Outside a transaction it
returns its argument.  Inside one, a pointer that already lands in a live
patch page is returned as-is (the C code searches the patch table by host
address range, which a buffer address can never match, and a patch address
matches exactly its own entry); otherwise a new patch is required: NULL when
the table already holds `COZYFS_MAX_PATCHES` entries or when the host
allocator fails (`allocOk = false`), else the 4096-byte page holding the
pointer is copied into a fresh patch and the matching patch address is
returned.  The source records `byte_off` — the offset inside the page, not the
page's offset — into `patch_offs`; the embedding reproduces that faithfully.
A `Ptr.patch` whose index is not live is a dangling host address (undefined in
C); the embedding returns failure for it, and no theorem below exercises
that case. -/
def writableAddr (fs : FS) (p : Ptr) (allocOk : Bool) : Option Ptr × FS :=
  if fs.transaction = TMode.off then (some p, fs)
  else
    match p with
    | .patch i b => if i < fs.patches.length then (some (.patch i b), fs) else (none, fs)
    | .buf off =>
      if fs.patches.length = COZYFS_MAX_PATCHES then (none, fs)
      else if allocOk = false then (none, fs)
      else
        let byteOff := off % 4096
        let pageBase := off - byteOff
        (some (.patch fs.patches.length byteOff),
         { fs with patches :=
            fs.patches ++ [{ off := byteOff, data := fun j => fs.mem (pageBase + j) }] })

/-- Store one byte through a resolved pointer: a buffer address updates the
shared buffer, a patch address updates that patch page (out-of-range patch
indices leave the state unchanged; they do not occur in a valid session). -/
def writeByte (fs : FS) (p : Ptr) (v : Nat) : FS :=
  match p with
  | .buf off => { fs with mem := fun i => if i = off then v else fs.mem i }
  | .patch i b =>
    match fs.patches.get? i with
    | none => fs
    | some pa =>
      { fs with patches :=
          fs.patches.set i { pa with data := fun j => if j = b then v else pa.data j } }

/-- Result of `cozyfs_transaction_rollback`: the returned code, the list of
patch pages handed to the host FREE callback, and the session state after the
call. -/
structure RollbackRes where
  code : Int
  freed : List Patch
  fs : FS

/-- `cozyfs_transaction_rollback` (part_000 lines 2835-2848): EINVAL when no
transaction is open; otherwise every patch page is released to the host
allocator (none is copied anywhere), the patch count is reset, `unlock` is
performed (compare-exchange of the lock word from the held ticket to 0, its
result ignored) and the mode returns to OFF. -/
def cozyfs_transaction_rollback (fs : FS) : RollbackRes :=
  if fs.transaction = TMode.off then ⟨-COZYFS_EINVAL, [], fs⟩
  else
    ⟨COZYFS_OK, fs.patches,
     { fs with patches := [],
               lock := if fs.lock = fs.ticket then 0 else fs.lock,
               transaction := TMode.off }⟩

/-! ## Lock release (`unlock`) -/

/-- Result of `unlock`: the new lock word, the returned code, and whether the
host wake primitive was invoked. -/
structure UnlockRes where
  lock : Nat
  code : Int
  wake : Bool

/-- `unlock` (part_000 lines 2472-2479): compare-exchange (release ordering)
of the lock word from the session's held ticket to 0.  When the word no longer
equals the ticket the exchange fails and ETIMEDOUT is returned with the word
untouched; on success the word becomes 0 and the host wake primitive runs
(`wakeOk` models the host callback succeeding; its failure is surfaced as
ESYSWAKE). -/
def unlock (lockWord ticket : Nat) (wakeOk : Bool) : UnlockRes :=
  if lockWord = ticket then
    { lock := 0, code := if wakeOk then COZYFS_OK else -COZYFS_ESYSWAKE, wake := true }
  else { lock := lockWord, code := -COZYFS_ETIMEDOUT, wake := false }

/-! ## Backup restore (`restore_backup`)

The buffer in backup mode is two halves of `tot_pages` pages each.  The state
is the raw byte map of the whole buffer plus the root's `tot_pages` and the
`backup` flag (the flag lives in bytes 16..19 of the root page; it is lifted
to its own field so the branch on it does not need to decode little-endian
bytes).  Field offsets inside `RPage`, with C layout rules: `u32 gen` at 0,
4 padding bytes, `volatile u64 lock` at 8, `volatile int backup` at 16,
4 padding bytes, `u64 last_backup_time` at 24. -/

/-- `BACKUP_NO` from the engine's enum. -/
def BACKUP_NO : Int := -1

/-- Byte offset of the `backup` field inside `RPage` (offsetof semantics; the
source's `OFFSETOF` macro is missing the address-of operator, but it is used
with offsetof intent). -/
def RPAGE_BACKUP_OFF : Nat := 16

/-- First byte copied by `restore_backup` and `perform_backup`:
`offsetof(RPage, backup) + sizeof(backup)`. -/
def RPAGE_SKIP : Nat := RPAGE_BACKUP_OFF + 4

/-- Byte offset of `last_backup_time` inside `RPage` (after the 4 padding
bytes that follow `backup`). -/
def RPAGE_LBT_OFF : Nat := 24

/-- Buffer state for the backup subsystem. -/
structure BStore where
  bytes : Nat → Nat
  tot : Nat
  backup : Int

/-- `restore_backup` (part_000 lines 2523-2542): when backup mode is off it
returns 0 and changes nothing; otherwise it returns 1 after copying bytes
`RPAGE_SKIP ..< tot*4096` of the second half over the first half (the source
always copies `root + tot_pages` onto `root`, the first half). -/
def restore_backup (st : BStore) : Int × BStore :=
  if st.backup = BACKUP_NO then (0, st)
  else
    (1, { st with bytes := fun i =>
        if RPAGE_SKIP ≤ i ∧ i < st.tot * 4096 then st.bytes (st.tot * 4096 + i)
        else st.bytes i })

/-- The crash branch of `enter_critical_section` (part_000 lines 2571-2577)
forwards the code from `restore_backup` only when it is negative; this helper
captures which code, if any, the caller surfaces. -/
def crashRecoverySurfaces (restoreCode : Int) : Option Int :=
  if restoreCode < 0 then some restoreCode else none

/-! ## User management (`create_user`) inside a transaction

`create_user` (part_000 lines 1989-2023, the body of the public
`cozyfs_mkusr`) does not route its user-record write through `writable_addr`.
In the branch where the tail user page still has a free slot, it takes
`upage = off2ptr(fs, root->tail_upage)` — with no patch covering that page
this is a raw pointer into the shared buffer — then calls
`writable_addr(fs, root)`, so only the root page's counters
(`tail_upage_used`, `next_account_id`) are copied into a patch, and finally
writes `user->id` and the user name through the raw `upage` pointer, straight
into the shared buffer, even while a transaction is open.  (The
tail-page-full branch is worse still: `allocate_page`'s bump path returns a
raw buffer pointer with the comment "TODO: The page here should be copied if
a transaction is happening".)

The embedding below is `create_user` specialized to the session state right
after `cozyfs_transaction_begin`: transaction mode ON and an empty patch
table, so `off2ptr` resolves to the shared buffer and the single
`writable_addr(fs, root)` call creates the one root-page patch.  The shared
buffer is modelled at the level of the fields the function touches; the
root-page patch the call creates is returned separately, since rollback frees
it while the shared buffer keeps the in-place user write. -/

/-- `MEMBER_SIZEOF(User, name)`: capacity of a user name. -/
def MAX_USER_NAME : Nat := 30

/-- `User` (part_000 lines 1431-1435): account id (0 = unused) and name. -/
structure UserM where
  id : Nat
  name : List Nat
deriving DecidableEq

/-- `UPage` (part_000 lines 1439-1446): chain neighbours and 127 user
slots. -/
structure UPageM where
  prev : Option Nat
  next : Option Nat
  users : List UserM
deriving DecidableEq

/-- The root-page fields and user pages that `create_user` touches, as they
sit in the shared buffer. -/
structure UserArea where
  next_account_id : Nat
  tail_upage : Option Nat
  tail_upage_used : Nat
  upages : Nat → Option UPageM

/-- The patched copy of the root-page counters that `writable_addr(fs, root)`
creates for `create_user`'s increments; rollback frees this page without
copying it back. -/
structure RootPatch where
  tail_upage_used : Nat
  next_account_id : Nat
deriving DecidableEq

/-- Result of running `create_user` in a fresh transaction: the returned
code, the shared buffer afterwards, and the root-page patch the call created
(none when it failed before patching). -/
structure MkusrRes where
  code : Int
  shared : UserArea
  rootPatch : Option RootPatch

/-- `create_user` (part_000 lines 1989-2023) in a fresh transaction (see the
section comment).  Name too long: ENAMETOOLONG.  A full tail page goes
through `allocate_page` and is out of this embedding's scope
(`NOT_MODELLED`).  Otherwise the user slot at index `tail_upage_used` — read
from the patched root copy, which was just copied from the shared value — is
overwritten in place in the shared buffer with the next account id and the
name, while only the two counter increments land in the root patch.  A
missing tail page or an out-of-range slot index would make the C write
through a garbage pointer (`UB`). -/
def create_user_in_tx (st : UserArea) (name : List Nat) : MkusrRes :=
  if MAX_USER_NAME ≤ name.length then ⟨-COZYFS_ENAMETOOLONG, st, none⟩
  else if st.tail_upage_used = 127 then ⟨NOT_MODELLED, st, none⟩
  else
    match st.tail_upage with
    | none => ⟨UB, st, none⟩
    | some off =>
      match st.upages off with
      | none => ⟨UB, st, none⟩
      | some pg =>
        let patch : RootPatch :=
          { tail_upage_used := st.tail_upage_used + 1,
            next_account_id := st.next_account_id + 1 }
        match pg.users.get? st.tail_upage_used with
        | none => ⟨UB, st, some patch⟩
        | some _ =>
          let slot : UserM := { id := st.next_account_id, name := name }
          let newUsers := pg.users.set st.tail_upage_used slot
          ⟨COZYFS_OK,
           { st with upages := fun o =>
               if o = off then some { pg with users := newUsers } else st.upages o },
           some patch⟩

/-! ## Entity, directory and handle layer

This layer embeds the object graph held in the buffer pages at the level of
the structs: directory pages (`DPage`, 28 links and a pool of 28 inode slots,
doubly chained) keyed by their page offset, the root entity stored in the root
page, and the root page's 333 inline handle slots.  A link's `off` field (a
byte offset to an `Entity`) is modelled as an `EntityRef` naming the root
entity or slot `j` of the pool in the directory page at offset `dp`.

The operations below are translated from the source specialized to a session
outside a transaction, where `writable_addr` is the identity on every pointer
and never fails (see `writableAddr`); store updates therefore write
directly to the object graph.  The `while (dpage)` chain walks of the C code
are given a fuel parameter; fuel exhaustion returns "not found" and is never
hit in the runs below (the concrete stores have one directory page). -/

/-- `ENTITY_DIR` flag bit. -/
def ENTITY_DIR : Nat := 1

/-- `ENTITY_FILE` flag bit. -/
def ENTITY_FILE : Nat := 2

/-- `MAX_NAME` from the engine source. -/
def MAX_NAME : Nat := 256

/-- Reference to an `Entity`: the root page's root entity, or slot `j` of the
inode pool embedded in the directory page at offset `dp`. -/
inductive EntityRef where
  | root
  | ent (dp : Nat) (j : Nat)
deriving DecidableEq

/-- `Entity`: refcount, kind flags, head/tail page offsets (none = INVALID),
head byte cursor and tail byte end. -/
structure EntityM where
  refs : Nat
  flags : Nat
  head : Option Nat
  tail : Option Nat
  head_start : Nat
  tail_end : Nat
deriving DecidableEq

/-- `Link`: the entity it names plus the name bytes (the C struct stores the
name NUL-padded in a 128-byte field and compares it through `my_strlen` and
`memeq`, which for NUL-free names is list equality). -/
structure LinkE where
  off : EntityRef
  name : List Nat
deriving DecidableEq

/-- `DPage`: chain neighbours, 28 link slots (none = `INVALID_OFFSET` in the
`off` field) and 28 pooled entity slots. -/
structure DPageM where
  prev : Option Nat
  next : Option Nat
  links : List (Option LinkE)
  ents : List EntityM
deriving DecidableEq

/-- `Handle`: used flag, 16-bit generation, entity offset, cursor. -/
structure HandleM where
  used : Bool
  gen : Nat
  entity : Option EntityRef
  cursor : Nat
deriving DecidableEq

/-- The object graph: root entity, directory pages by offset, and the root
page's 333 handle slots. -/
structure Store where
  rootEnt : EntityM
  dpages : Nat → Option DPageM
  handles : List HandleM

/-- Resolve an `EntityRef` (the effect of `off2ptr` on an entity offset in a
patch-free session). -/
def getEnt (st : Store) (r : EntityRef) : Option EntityM :=
  match r with
  | .root => some st.rootEnt
  | .ent dp j => (st.dpages dp).bind fun pg => pg.ents.get? j

/-- Apply an update to the entity named by `r` (a store through a writable
entity pointer). -/
def updateEnt (st : Store) (r : EntityRef) (f : EntityM → EntityM) : Store :=
  match r with
  | .root => { st with rootEnt := f st.rootEnt }
  | .ent dp j =>
    match st.dpages dp with
    | none => st
    | some pg =>
      match pg.ents.get? j with
      | none => st
      | some e =>
        { st with dpages := fun o =>
            if o = dp then some { pg with ents := pg.ents.set j (f e) } else st.dpages o }

/-- Overwrite link slot `i` of the directory page at offset `off`. -/
def setLink (st : Store) (off : Nat) (i : Nat) (l : Option LinkE) : Store :=
  match st.dpages off with
  | none => st
  | some pg =>
    { st with dpages := fun o =>
        if o = off then some { pg with links := pg.links.set i l } else st.dpages o }

/-- The inner link scan shared by `find_entity` and `remove_entity`: walk the
link slots in order, stopping at the first `INVALID_OFFSET` slot, and return
the entity of the first link whose name matches. -/
def findInLinks (links : List (Option LinkE)) (name : List Nat) : Option EntityRef :=
  match links with
  | [] => none
  | none :: _ => none
  | some l :: rest => if l.name = name then some l.off else findInLinks rest name

/-- The `while (dpage)` loop of `find_entity`, walking the directory page
chain. -/
def findEntityLoop (st : Store) (fuel : Nat) (cur : Option Nat) (name : List Nat) :
    Option EntityRef :=
  match fuel, cur with
  | 0, _ => none
  | _ + 1, none => none
  | fuel + 1, some off =>
    match st.dpages off with
    | none => none
    | some pg =>
      match findInLinks pg.links name with
      | some r => some r
      | none => findEntityLoop st fuel pg.next name

/-- `find_entity` (part_000 lines 1833-1851): walk the parent's directory-page
chain comparing the name against every link; return the named entity or
nothing. -/
def find_entity (st : Store) (fuel : Nat) (parent : EntityM) (name : List Nat) :
    Option EntityRef :=
  findEntityLoop st fuel parent.head name

/-- `create_entity` (part_000 lines 1853-1918).  Notes on the translation:
the name-length check is the only validation; the duplicate-name check is an
empty TODO block in the source (`find_entity` is called, its result tested,
and nothing happens on a hit), so a duplicate falls through and a second link
is appended; a parent whose tail offset is INVALID, a full tail page and a
full inode pool all reach unfinished TODO code (NULL dereference,
out-of-bounds write, or the return-less `find_unused_entity`), modelled as
`UB`; the `flags` parameter is never used and a fresh entity keeps the stale
`flags` of its pool slot. -/
def create_entity (st : Store) (parent : EntityRef) (target : Option EntityRef)
    (name : List Nat) (flags : Nat) : Except Int Store :=
  if MAX_NAME < name.length then .error (-COZYFS_EINVAL)
  else
    match getEnt st parent with
    | none => .error UB
    | some pEnt =>
      match pEnt.tail with
      | none => .error UB
      | some tailOff =>
        match st.dpages tailOff with
        | none => .error UB
        | some tailPg =>
          let i := tailPg.links.findIdx fun l => l.isNone
          if 28 ≤ i then .error UB
          else
            match target with
            | some tref =>
              match getEnt st tref with
              | none => .error UB
              | some _ =>
                let st1 := updateEnt st tref fun e => { e with refs := e.refs + 1 }
                .ok (setLink st1 tailOff i (some { off := tref, name := name }))
            | none =>
              let j := tailPg.ents.findIdx fun e => e.refs == 0
              if 28 ≤ j then .error UB
              else
                let st1 := setLink st tailOff i (some { off := .ent tailOff j, name := name })
                .ok (updateEnt st1 (.ent tailOff j) fun e =>
                  { e with refs := 1, head := none, tail := none,
                           head_start := 0, tail_end := 0 })

/-- Outcome of `remove_entity`: the C function is declared to return an `int`
status but, when the link is found, the search loop returns
`off2ptr(fs, dpage->links[i].off)` — the entity's host address cast to `int`.
That ill-typed return is represented by its own constructor carrying the
entity the pointer refers to. -/
inductive RemoveRes where
  | ptrReturn (r : EntityRef)
  | code (c : Int)
deriving DecidableEq

/-- The search loop of `remove_entity` (part_000 lines 1923-1936): identical
shape to `find_entity`, but on a hit it returns the entity pointer as the
function's result. -/
def removeSearch (st : Store) (fuel : Nat) (cur : Option Nat) (name : List Nat) :
    RemoveRes :=
  match fuel, cur with
  | 0, _ => .code UB
  | _ + 1, none => .code (-COZYFS_ENOENT)
  | fuel + 1, some off =>
    match st.dpages off with
    | none => .code UB
    | some pg =>
      match findInLinks pg.links name with
      | some r => .ptrReturn r
      | none => removeSearch st fuel pg.next name

/-- `remove_entity` (part_000 lines 1920-1960).  The loop either returns the
found link's entity pointer (as an `int`) or exits with `dpage == NULL`, in
which case ENOENT is returned; the refcount decrement and swap-remove
compaction after the loop (lines 1941-1958) are unreachable, so the store is
returned unchanged in every case. -/
def remove_entity (st : Store) (fuel : Nat) (parent : EntityM) (name : List Nat)
    (flags : Nat) : RemoveRes × Store :=
  (removeSearch st fuel parent.head name, st)

/-- Resolve a chain of path components from a starting entity, as the
`for (i = 0; i < pathnum-1; i++)` loops of the front-end functions do; `none`
is the loop's ENOENT exit. -/
def resolveWalk (st : Store) (fuel : Nat) : EntityRef → List (List Nat) → Option EntityRef
  | cur, [] => some cur
  | cur, n :: ns =>
    match getEnt st cur with
    | none => none
    | some e =>
      match find_entity st fuel e n with
      | none => none
      | some r => resolveWalk st fuel r ns

/-- `free_entity` (part_000 lines 1818-1831) in a patch-free session:
decrement the refcount; when it reaches zero the actual freeing of content
pages and the inode slot is a TODO in the source, so nothing else happens.
(The `writable_addr` failure branch returning ENOMEM cannot fire outside a
transaction.) -/
def free_entity (st : Store) (entity : EntityRef) : Except Int Store :=
  .ok (updateEnt st entity fun e => { e with refs := e.refs - 1 })

/-- `open_` (part_000 lines 2283-2322): parse the path, then — as the loop
bound `i < pathnum-1` in the source dictates — resolve only the components
before the last one, apply the EISDIR check to the entity so reached, find the
first unused handle slot among the root page's 333 (ENFILE when none), mark it
used and point it at the entity, and return `pack_fd` =
`(gen << 16) | index`. -/
def open_ (st : Store) (fuel : Nat) (path : List Nat) : Except Int (Nat × Store) :=
  match parse_path path 32 with
  | .error e => .error e
  | .ok comps =>
    match resolveWalk st fuel EntityRef.root comps.dropLast with
    | none => .error (-COZYFS_ENOENT)
    | some eref =>
      match getEnt st eref with
      | none => .error UB
      | some entity =>
        if entity.flags &&& ENTITY_DIR ≠ 0 then .error (-COZYFS_EISDIR)
        else
          let i := st.handles.findIdx fun h => !h.used
          if i = 333 ∨ 65536 ≤ i then .error (-COZYFS_ENFILE)
          else
            match st.handles.get? i with
            | none => .error UB
            | some h =>
              .ok (h.gen * 65536 + i,
                   { st with handles :=
                      st.handles.set i { h with entity := some eref, used := true } })

/-- `close_` (part_000 lines 2324-2348) in a patch-free session.  `unpack_fd`
treats the descriptor as its `u32` bit pattern: upper 16 bits generation,
lower 16 bits slot index; EBADF on an out-of-range index or a generation
mismatch (the used flag is not checked).  A non-file entity is EINVAL.  Then
the inode reference is dropped, the slot is marked unused, and the generation
is incremented modulo 2^16; the source then tests the new value against `0`
and against `(u64) -1` — the latter literally, 2^64 - 1, which a 16-bit
generation can never equal — and resets it to 1 on a match. -/
def close_ (st : Store) (fd : Nat) : Except Int Store :=
  let gen := fd / 65536
  let idx := fd % 65536
  if 333 ≤ idx then .error (-COZYFS_EBADF)
  else
    match st.handles.get? idx with
    | none => .error (-COZYFS_EBADF)
    | some h =>
      if h.gen ≠ gen then .error (-COZYFS_EBADF)
      else
        match h.entity with
        | none => .error UB
        | some eref =>
          match getEnt st eref with
          | none => .error UB
          | some ent =>
            if ent.flags &&& ENTITY_FILE = 0 then .error (-COZYFS_EINVAL)
            else
              match free_entity st eref with
              | .error e => .error e
              | .ok st1 =>
                let g1 := (h.gen + 1) % 65536
                let g2 := if g1 = 0 ∨ g1 = 18446744073709551615 then 1 else g1
                .ok { st1 with handles :=
                        st1.handles.set idx { h with used := false, gen := g2 } }

/-! ## Concrete fixtures

Small concrete states used to run the embedded operations: a session in a
fresh transaction, a session with a full patch table, backup buffers with the
mode off and on, and object graphs with one directory page holding either a
subdirectory named "a" or a regular file named "f" under the root. -/

/-- An empty user slot. -/
def userEmpty : UserM := { id := 0, name := [] }

/-- A user page with all 127 slots empty. -/
def upageEmpty : UPageM :=
  { prev := none, next := none, users := List.replicate 127 userEmpty }

/-- Shared user area at the moment `cozyfs_transaction_begin` returns: one
tail user page at offset 8192 with every slot free, next account id 1. -/
def uaBegin : UserArea :=
  { next_account_id := 1, tail_upage := some 8192, tail_upage_used := 0,
    upages := fun o => if o = 8192 then some upageEmpty else none }

/-- User slot 0 of the tail user page at offset 8192. -/
def tailUser0 (st : UserArea) : Option UserM :=
  match st.upages 8192 with
  | none => none
  | some pg => pg.users.get? 0

/-- Result of `cozyfs_mkusr("b")` (name byte 98) issued inside the fresh
transaction on `uaBegin`. -/
def mkusrTxRes : MkusrRes := create_user_in_tx uaBegin [98]

/-- Session outside a transaction. -/
def fsOff : FS :=
  { mem := fun _ => 0, lock := 0, ticket := 0, transaction := TMode.off, patches := [] }

/-- Session in a transaction whose patch table already holds
`COZYFS_MAX_PATCHES` entries. -/
def fsFull : FS :=
  { mem := fun _ => 0, lock := 5, ticket := 5, transaction := TMode.on,
    patches := List.replicate COZYFS_MAX_PATCHES { off := 0, data := fun _ => 0 } }

/-- One-page-per-half buffer with backup mode off. -/
def bOff : BStore := { bytes := fun _ => 0, tot := 1, backup := BACKUP_NO }

/-- One-page-per-half buffer with backup mode on, whose active (first) half
bytes are all 5 and inactive (second) half bytes are all 7. -/
def bOn : BStore :=
  { bytes := fun i => if i < 4096 then 5 else 7, tot := 1, backup := 1 }

/-- An unused entity slot. -/
def entFree : EntityM :=
  { refs := 0, flags := 0, head := none, tail := none, head_start := 0, tail_end := 0 }

/-- A directory entity with no content pages. -/
def entDirA : EntityM :=
  { refs := 1, flags := ENTITY_DIR, head := none, tail := none, head_start := 0, tail_end := 0 }

/-- A regular-file entity with no content pages. -/
def entFileF : EntityM :=
  { refs := 1, flags := ENTITY_FILE, head := none, tail := none, head_start := 0, tail_end := 0 }

/-- An unused handle slot with the initial generation 1. -/
def hFree : HandleM := { used := false, gen := 1, entity := none, cursor := 0 }

/-- The name "a". -/
def nameA : List Nat := [97]

/-- The name "b". -/
def nameB : List Nat := [98]

/-- The name "f". -/
def nameF : List Nat := [102]

/-- The root directory entity, whose chain is the single directory page at
offset 4096. -/
def rootDir : EntityM :=
  { refs := 1, flags := ENTITY_DIR, head := some 4096, tail := some 4096,
    head_start := 0, tail_end := 0 }

/-- Directory page holding one link, "a", to the directory entity in its own
pool slot 0. -/
def dpageA : DPageM :=
  { prev := none, next := none,
    links := some { off := .ent 4096 0, name := nameA } :: List.replicate 27 none,
    ents := entDirA :: List.replicate 27 entFree }

/-- Directory page holding one link, "f", to the file entity in its own pool
slot 0. -/
def dpageF : DPageM :=
  { prev := none, next := none,
    links := some { off := .ent 4096 0, name := nameF } :: List.replicate 27 none,
    ents := entFileF :: List.replicate 27 entFree }

/-- Store whose root directory contains the subdirectory "a". -/
def stDirA : Store :=
  { rootEnt := rootDir,
    dpages := fun o => if o = 4096 then some dpageA else none,
    handles := List.replicate 333 hFree }

/-- Store whose root directory contains the regular file "f". -/
def stFileF : Store :=
  { rootEnt := rootDir,
    dpages := fun o => if o = 4096 then some dpageF else none,
    handles := List.replicate 333 hFree }

/-- A used handle on the file of `stFileF` whose slot generation is 0xFFFE,
one close away from the all-ones value. -/
def hNearWrap : HandleM :=
  { used := true, gen := 65534, entity := some (.ent 4096 0), cursor := 0 }

/-- Store for the close run: slot 0 holds `hNearWrap`, open on the file "f". -/
def stClose : Store :=
  { rootEnt := rootDir,
    dpages := fun o => if o = 4096 then some dpageF else none,
    handles := hNearWrap :: List.replicate 332 hFree }

/-- The descriptor packed for slot 0 with generation 0xFFFE (its `u32` bit
pattern, as `unpack_fd` reads it). -/
def fdNearWrap : Nat := 65534 * 65536

/-- Number of links named `name` in the directory page at `off`. -/
def linksNamed (st : Store) (off : Nat) (name : List Nat) : Nat :=
  match st.dpages off with
  | none => 0
  | some pg =>
    (pg.links.filter fun l =>
      match l with
      | some l => l.name == name
      | none => false).length

/-- Result of creating a second entity named "a" under the root of
`stDirA` (the `mkdir` path: no link target). -/
def createDupRes : Except Int Store := create_entity stDirA EntityRef.root none nameA ENTITY_DIR

/-- Status code of `createDupRes` (0 when the call reported success). -/
def createDupCode : Int :=
  match createDupRes with
  | .ok _ => COZYFS_OK
  | .error e => e

/-- How many links named "a" the directory page holds after `createDupRes`. -/
def createDupCount : Nat :=
  match createDupRes with
  | .ok st => linksNamed st 4096 nameA
  | .error _ => 0

/-- Result of closing `fdNearWrap` on `stClose`. -/
def closeRes : Except Int Store := close_ stClose fdNearWrap

/-- Whether `closeRes` reported success. -/
def closeResOk : Bool :=
  match closeRes with
  | .ok _ => true
  | .error _ => false

/-- Handle slot 0 after `closeRes`. -/
def closeResSlot : Option HandleM :=
  match closeRes with
  | .ok st => st.handles.get? 0
  | .error _ => none

/-! ## Theorems -/

/-- Unfolding equation of `parseLoop` at positive fuel. -/
theorem parseLoop_succ_eq (fuel : Nat) (p : List Nat) (acc : List (List Nat)) (max : Nat) :
    parseLoop (fuel + 1) p acc max =
      match parseChunk p acc max with
      | .error e => .error e
      | .ok (acc2, none) => .ok acc2
      | .ok (acc2, some rest) => parseLoop fuel rest acc2 max := rfl

/-- Unfolding equation of `processToks` on a nonempty token list. -/
theorem processToks_cons_eq (max : Nat) (acc : List (List Nat)) (t : List Nat)
    (ts : List (List Nat)) :
    processToks max acc (t :: ts) =
      if t = [] then .error (-COZYFS_EINVAL)
      else
        match applyComp t acc max with
        | .error e => .error e
        | .ok acc2 => processToks max acc2 ts := rfl

/-- Unfolding equation of `splitSlash` on a nonempty string. -/
theorem splitSlash_cons_eq (c : Nat) (rest : List Nat) :
    splitSlash (c :: rest) =
      if c = slashByte then [] :: splitSlash rest
      else
        match splitSlash rest with
        | [] => [[c]]
        | t :: ts => (c :: t) :: ts := rfl

/-- `splitSlash` always returns at least one token. -/
theorem splitSlash_ne_nil (q : List Nat) : splitSlash q ≠ [] := by
  cases q with
  | nil => simp [splitSlash]
  | cons c rest =>
    rw [splitSlash_cons_eq]
    split
    · simp
    · split <;> simp

/-- `splitSlash` through the lens of `parseChunk`'s scan: the head token is
everything before the first separator, and the tail tokens are the split of
what follows that separator. -/
theorem splitSlash_view (q : List Nat) :
    splitSlash q = q.takeWhile (fun c => c ≠ slashByte) ::
      (match q.dropWhile (fun c => c ≠ slashByte) with
       | [] => ([] : List (List Nat))
       | _ :: rest => splitSlash rest) := by
  induction q with
  | nil => rfl
  | cons c rest ih =>
    by_cases hc : c = slashByte
    · subst hc
      rw [splitSlash_cons_eq, if_pos rfl, List.takeWhile_cons_of_neg (by simp),
          List.dropWhile_cons_of_neg (by simp)]
    · rw [splitSlash_cons_eq, if_neg hc, List.takeWhile_cons_of_pos (by simp [hc]),
          List.dropWhile_cons_of_pos (by simp [hc]), ih]

/-- Appending a final separator appends a final empty token to the split. -/
theorem splitSlash_concat_slash (q : List Nat) :
    splitSlash (q ++ [slashByte]) = splitSlash q ++ [[]] := by
  induction q with
  | nil => rfl
  | cons c rest ih =>
    by_cases hc : c = slashByte
    · subst hc
      rw [List.cons_append, splitSlash_cons_eq, if_pos rfl, ih,
          splitSlash_cons_eq, if_pos rfl]
      rfl
    · rw [List.cons_append, splitSlash_cons_eq, if_neg hc, ih,
          splitSlash_cons_eq, if_neg hc]
      rcases hs : splitSlash rest with _ | ⟨t, ts⟩
      · exact absurd hs (splitSlash_ne_nil rest)
      · rfl

/-- A nonempty string that does not end in a separator splits into tokens
whose last token is nonempty. -/
theorem splitSlash_getLast_ne (q : List Nat) (h1 : q ≠ [])
    (h2 : q.getLast? ≠ some slashByte) :
    (splitSlash q).getLast? ≠ some ([] : List Nat) := by
  induction q with
  | nil => exact absurd rfl h1
  | cons c rest ih =>
    cases rest with
    | nil =>
      have hc : ¬ c = slashByte := fun h => h2 (by rw [h]; rfl)
      rw [splitSlash_cons_eq, if_neg hc]
      simp [splitSlash]
    | cons d rest2 =>
      have h2r : (d :: rest2).getLast? ≠ some slashByte := by
        rw [List.getLast?_cons_cons] at h2
        exact h2
      by_cases hc : c = slashByte
      · subst hc
        rw [splitSlash_cons_eq, if_pos rfl]
        rcases hs : splitSlash (d :: rest2) with _ | ⟨t, ts⟩
        · exact absurd hs (splitSlash_ne_nil _)
        · have ih2 := ih (by simp) h2r
          rw [hs] at ih2
          rw [List.getLast?_cons_cons]
          exact ih2
      · rw [splitSlash_cons_eq, if_neg hc]
        rcases hs : splitSlash (d :: rest2) with _ | ⟨t, ts⟩
        · exact absurd hs (splitSlash_ne_nil _)
        · have ih2 := ih (by simp) h2r
          rw [hs] at ih2
          cases ts with
          | nil => simp
          | cons u ts2 =>
            rw [show (match (t :: u :: ts2 : List (List Nat)) with
                      | [] => [[c]]
                      | t :: ts => (c :: t) :: ts) = (c :: t) :: u :: ts2 from rfl,
                List.getLast?_cons_cons]
            rw [List.getLast?_cons_cons] at ih2
            exact ih2

/-- `dropTrailingEmpty` keeps a single nonempty token. -/
theorem dropTrailingEmpty_single (t : List Nat) (h : t ≠ []) :
    dropTrailingEmpty [t] = [t] := by
  have hl : ([t] : List (List Nat)).getLast? ≠ some [] := by
    rw [show ([t] : List (List Nat)).getLast? = some t from rfl]
    simp [h]
  unfold dropTrailingEmpty
  rw [if_neg hl]

/-- `dropTrailingEmpty` on a token followed by one empty token. -/
theorem dropTrailingEmpty_pair_empty (t : List Nat) :
    dropTrailingEmpty [t, []] = [t] := by
  unfold dropTrailingEmpty
  rw [if_pos (show ([t, []] : List (List Nat)).getLast? = some [] from rfl)]
  rfl

/-- `dropTrailingEmpty` distributes over a cons with a nonempty tail. -/
theorem dropTrailingEmpty_cons (t : List Nat) (S : List (List Nat)) (h : S ≠ []) :
    dropTrailingEmpty (t :: S) = t :: dropTrailingEmpty S := by
  cases S with
  | nil => exact absurd rfl h
  | cons s S2 =>
    unfold dropTrailingEmpty
    rw [List.getLast?_cons_cons, List.dropLast_cons₂]
    split_ifs <;> rfl

/-- `dropTrailingEmpty` removes exactly the final empty token added by a
trailing separator. -/
theorem dropTrailingEmpty_concat_empty (S : List (List Nat)) :
    dropTrailingEmpty (S ++ [[]]) = S := by
  unfold dropTrailingEmpty
  rw [List.getLast?_concat, if_pos rfl, List.dropLast_concat]

/-- `dropTrailingEmpty` is the identity when the last token is nonempty. -/
theorem dropTrailingEmpty_no_empty (S : List (List Nat))
    (h : S.getLast? ≠ some ([] : List Nat)) : dropTrailingEmpty S = S := by
  unfold dropTrailingEmpty
  rw [if_neg h]

/-- The scanning loop of `parse_path` computes exactly the fold of the
component rules over the '/'-split tokens with the final trailing-separator
token discarded, for any fuel at least the string length. -/
theorem parseLoop_toks (max : Nat) :
    ∀ (fuel : Nat) (q : List Nat) (acc : List (List Nat)),
      q.length ≤ fuel → q ≠ [] →
      parseLoop fuel q acc max =
        processToks max acc (dropTrailingEmpty (splitSlash q)) := by
  intro fuel
  induction fuel with
  | zero =>
    intro q acc hlen hne
    exact absurd (List.length_eq_zero.mp (Nat.le_zero.mp hlen)) hne
  | succ f ih =>
    intro q acc hlen hne
    have hq := List.takeWhile_append_dropWhile (p := fun c => c ≠ slashByte) (l := q)
    by_cases htok : q.takeWhile (fun c => c ≠ slashByte) = []
    · rcases hdw : q.dropWhile (fun c => c ≠ slashByte) with _ | ⟨a, rest⟩
      · rw [htok, hdw] at hq
        exact absurd hq.symm hne
      · rcases rest with _ | ⟨b, rest2⟩
        · have hsq : splitSlash q = [[], []] := by
            rw [splitSlash_view q, hdw, htok]
            rfl
          rw [parseLoop_succ_eq]
          unfold parseChunk
          rw [if_pos htok, hsq, dropTrailingEmpty_pair_empty, processToks_cons_eq,
              if_pos rfl]
        · have hsq : splitSlash q = [] :: splitSlash (b :: rest2) := by
            rw [splitSlash_view q, hdw, htok]
          rw [parseLoop_succ_eq]
          unfold parseChunk
          rw [if_pos htok, hsq,
              dropTrailingEmpty_cons _ _ (splitSlash_ne_nil _), processToks_cons_eq,
              if_pos rfl]
    · rcases hdw : q.dropWhile (fun c => c ≠ slashByte) with _ | ⟨a, rest⟩
      · have hsq : splitSlash q = [q.takeWhile (fun c => c ≠ slashByte)] := by
          rw [splitSlash_view q, hdw]
        rw [parseLoop_succ_eq]
        unfold parseChunk
        rw [if_neg htok, hdw, hsq, dropTrailingEmpty_single _ htok, processToks_cons_eq,
            if_neg htok]
        rcases happ : applyComp (q.takeWhile (fun c => c ≠ slashByte)) acc max with e | acc2 <;>
          rfl
      · rcases rest with _ | ⟨b, rest2⟩
        · have hsq : splitSlash q = [q.takeWhile (fun c => c ≠ slashByte), []] := by
            rw [splitSlash_view q, hdw]
            rfl
          rw [parseLoop_succ_eq]
          unfold parseChunk
          rw [if_neg htok, hdw, hsq, dropTrailingEmpty_pair_empty, processToks_cons_eq,
              if_neg htok]
          rcases happ : applyComp (q.takeWhile (fun c => c ≠ slashByte)) acc max with e | acc2 <;>
            rfl
        · have hsq : splitSlash q =
              q.takeWhile (fun c => c ≠ slashByte) :: splitSlash (b :: rest2) := by
            rw [splitSlash_view q, hdw]
          have hlq := congrArg List.length hq
          rw [hdw] at hlq
          simp only [List.length_append, List.length_cons] at hlq
          have hlen2 : (b :: rest2).length ≤ f := by
            simp only [List.length_cons]
            omega
          rw [parseLoop_succ_eq]
          unfold parseChunk
          rw [if_neg htok, hdw, hsq,
              dropTrailingEmpty_cons _ _ (splitSlash_ne_nil _), processToks_cons_eq,
              if_neg htok]
          rcases happ : applyComp (q.takeWhile (fun c => c ≠ slashByte)) acc max with e | acc2
          · rfl
          · exact ih (b :: rest2) acc2 hlen2 (by simp)

/-- Unfolding equation of `parse_path` on a nonempty path. -/
theorem parse_path_cons_eq (c : Nat) (rest : List Nat) (max : Nat) :
    parse_path (c :: rest) max =
      if c = slashByte then
        (if rest = [] then .ok [] else parseLoop rest.length rest [] max)
      else parseLoop (c :: rest).length (c :: rest) [] max := rfl

/-- C8: for every byte string `p`, `parse_path p 32` equals the parser the
claim describes — strip one optional leading '/', split on '/', fail with
EINVAL on an empty component between two separators (a single trailing '/'
merely contributes a discarded empty final token), drop every "." component,
pop the component stack for ".." and fail with EINVAL when it would pop past
empty, and return the ordered component list, failing once more than 32
components accumulate.  On the two inputs where those words are silent the
spec side follows the code: the empty string is EINVAL and a bare "/" is the
empty component list. -/
theorem parse_path_follows_claimed_pipeline (p : List Nat) :
    parse_path p 32 = parsePathSpec p 32 := by
  cases p with
  | nil => rfl
  | cons c rest =>
    rw [parse_path_cons_eq]
    have hspec : parsePathSpec (c :: rest) 32 =
        if c = slashByte ∧ rest = [] then .ok []
        else
          processToks 32 []
            (dropTrailingEmpty (splitSlash (if c = slashByte then rest else c :: rest))) :=
      rfl
    rw [hspec]
    by_cases hc : c = slashByte
    · subst hc
      rw [if_pos rfl]
      by_cases hr : rest = []
      · subst hr
        rw [if_pos rfl, if_pos ⟨rfl, rfl⟩]
      · rw [if_neg hr, if_neg (fun h => hr h.2), if_pos rfl]
        exact parseLoop_toks 32 rest.length rest [] le_rfl hr
    · rw [if_neg hc, if_neg (fun h => hc h.1), if_neg hc]
      exact parseLoop_toks 32 (c :: rest).length (c :: rest) [] le_rfl (by simp)

/-- C10: for every nonempty path `p` that does not end in '/', `parse_path`
applied to `p` with a single trailing '/' appended returns exactly the same
component list as `parse_path p`: the trailing slash is accepted rather than
rejected as an empty component. -/
theorem parse_path_trailing_slash (p : List Nat) (h1 : p ≠ [])
    (h2 : p.getLast? ≠ some slashByte) :
    parse_path (p ++ [slashByte]) 32 = parse_path p 32 := by
  cases p with
  | nil => exact absurd rfl h1
  | cons c rest =>
    by_cases hc : c = slashByte
    · subst hc
      cases rest with
      | nil => exact absurd rfl h2
      | cons d rest2 =>
        have h2r : (d :: rest2).getLast? ≠ some slashByte := by
          rw [List.getLast?_cons_cons] at h2
          exact h2
        have hne : (d :: rest2) ++ [slashByte] ≠ [] := by simp
        have hne2 : (d :: rest2) ≠ [] := by simp
        rw [List.cons_append, parse_path_cons_eq, parse_path_cons_eq, if_pos rfl,
            if_pos rfl, if_neg hne, if_neg hne2,
            parseLoop_toks 32 ((d :: rest2) ++ [slashByte]).length
              ((d :: rest2) ++ [slashByte]) [] le_rfl hne,
            parseLoop_toks 32 (d :: rest2).length (d :: rest2) [] le_rfl hne2,
            splitSlash_concat_slash, dropTrailingEmpty_concat_empty,
            dropTrailingEmpty_no_empty _ (splitSlash_getLast_ne _ hne2 h2r)]
    · have hne2 : (c :: rest) ≠ [] := by simp
      have hne : c :: (rest ++ [slashByte]) ≠ [] := by simp
      rw [List.cons_append, parse_path_cons_eq, parse_path_cons_eq, if_neg hc, if_neg hc,
          parseLoop_toks 32 (c :: (rest ++ [slashByte])).length
            (c :: (rest ++ [slashByte])) [] le_rfl hne,
          parseLoop_toks 32 (c :: rest).length (c :: rest) [] le_rfl hne2,
          ← List.cons_append, splitSlash_concat_slash, dropTrailingEmpty_concat_empty,
          dropTrailingEmpty_no_empty _ (splitSlash_getLast_ne _ hne2 h2)]

/-- Witness for C10: appending a slash to the path "a" parses to the same
single component. -/
theorem parse_path_trailing_slash_witness :
    ([97] : List Nat) ≠ [] ∧ ([97] : List Nat).getLast? ≠ some slashByte ∧
    parse_path ([97] ++ [slashByte]) 32 = parse_path [97] 32 :=
  ⟨by decide, by decide, parse_path_trailing_slash [97] (by decide) (by decide)⟩

/-- A writable-address request never changes the attached buffer or the
transaction mode (it can only extend the patch table). -/
theorem writableAddr_frame (fs : FS) (p : Ptr) (a : Bool) :
    ((writableAddr fs p a).2).mem = fs.mem ∧
    ((writableAddr fs p a).2).transaction = fs.transaction := by
  unfold writableAddr
  split
  · exact ⟨rfl, rfl⟩
  · cases p with
    | patch i b =>
      dsimp only
      split <;> exact ⟨rfl, rfl⟩
    | buf off =>
      dsimp only
      split
      · exact ⟨rfl, rfl⟩
      · split <;> exact ⟨rfl, rfl⟩

/-- Inside a transaction, a successful writable-address request always yields
a patch-page address, never a buffer address. -/
theorem writableAddr_gives_patch (fs : FS) (p q : Ptr) (a : Bool)
    (htx : fs.transaction ≠ TMode.off) (h : (writableAddr fs p a).1 = some q) :
    ∃ i b, q = Ptr.patch i b := by
  unfold writableAddr at h
  rw [if_neg htx] at h
  cases p with
  | patch i b =>
    dsimp only at h
    split at h
    · exact ⟨i, b, (Option.some_inj.mp h).symm⟩
    · exact absurd h (by simp)
  | buf off =>
    dsimp only at h
    split at h
    · exact absurd h (by simp)
    · split at h
      · exact absurd h (by simp)
      · exact ⟨fs.patches.length, off % 4096, (Option.some_inj.mp h).symm⟩

/-- A store through a patch-page address leaves the attached buffer and the
transaction mode unchanged. -/
theorem writeByte_patch_frame (fs : FS) (i b v : Nat) :
    (writeByte fs (Ptr.patch i b) v).mem = fs.mem ∧
    (writeByte fs (Ptr.patch i b) v).transaction = fs.transaction := by
  unfold writeByte
  dsimp only
  split <;> exact ⟨rfl, rfl⟩

/-- C1 (code bug): the claim fails on the code because not every operation
routes its writes through `writable_addr`.  Running `cozyfs_mkusr("b")`
between begin and rollback on `uaBegin` succeeds and overwrites user slot 0
of the tail user page in place in the shared buffer (it was empty, it now
holds account id 1 named "b"), while the only patch the call creates holds
just the root-page counters; since `cozyfs_transaction_rollback` never writes
the attached buffer — the first conjunct, for every session state — the
rollback frees that patch and the user record stays visible, contradicting
"every byte of the attached buffer has the same value after rollback" and
P6's "on rollback they never become visible".  The spec is the evident
intent: `allocate_page` carries the source's own admission "TODO: The page
here should be copied if a transaction is happening". -/
theorem mkusr_write_survives_rollback :
    (∀ fs : FS, ((cozyfs_transaction_rollback fs).fs).mem = fs.mem) ∧
    mkusrTxRes.code = COZYFS_OK ∧
    mkusrTxRes.rootPatch = some { tail_upage_used := 1, next_account_id := 2 } ∧
    tailUser0 uaBegin = some { id := 0, name := [] } ∧
    tailUser0 mkusrTxRes.shared = some { id := 1, name := [98] } ∧
    tailUser0 mkusrTxRes.shared ≠ tailUser0 uaBegin := by
  refine ⟨?_, rfl, rfl, rfl, rfl, by decide⟩
  intro fs
  unfold cozyfs_transaction_rollback
  split <;> rfl

/-- C2: for every session and every pointer, outside a transaction
`writable_addr` is the identity (same pointer back, state untouched); inside a
transaction, a buffer pointer — whose page can have no live patch, since the
address-range search only ever matches patch pages — fails with the
out-of-memory result (NULL, surfaced as ENOMEM by callers) when the patch
table already holds `COZYFS_MAX_PATCHES` = 128 entries, leaving the patch
table unmodified. -/
theorem writable_addr_identity_and_capacity (fs : FS) (p : Ptr) (allocOk : Bool) :
    (fs.transaction = TMode.off → writableAddr fs p allocOk = (some p, fs)) ∧
    (fs.transaction ≠ TMode.off → ∀ off, p = Ptr.buf off →
      fs.patches.length = COZYFS_MAX_PATCHES →
      writableAddr fs p allocOk = (none, fs)) := by
  constructor
  · intro h
    simp [writableAddr, h]
  · intro h off hp hfull
    subst hp
    simp [writableAddr, h, hfull]

/-- Witness for C2: identity outside a transaction at a concrete session, and
failure without modification at a concrete session whose patch table holds
128 entries. -/
theorem writable_addr_identity_and_capacity_witness :
    writableAddr fsOff (Ptr.buf 0) true = (some (Ptr.buf 0), fsOff) ∧
    writableAddr fsFull (Ptr.buf 0) true = (none, fsFull) := by
  refine ⟨(writable_addr_identity_and_capacity fsOff (Ptr.buf 0) true).1 rfl, ?_⟩
  exact (writable_addr_identity_and_capacity fsFull (Ptr.buf 0) true).2
    (by decide) 0 rfl (by simp [fsFull])

/-- C3: for every lock-word value and held ticket, `unlock` compare-exchanges
the word from the ticket to 0: when the word still equals the ticket the
exchange succeeds, the word becomes 0 and the host wake primitive is invoked
(its failure surfacing as ESYSWAKE); when the word differs, the ticket expired
and was stolen, ETIMEDOUT is returned and the word is unchanged.  In
particular after any successful release the lock word is 0. -/
theorem unlock_release_cmpxchg (lockWord ticket : Nat) (wakeOk : Bool) :
    (lockWord = ticket →
      unlock lockWord ticket wakeOk =
        { lock := 0, code := if wakeOk then COZYFS_OK else -COZYFS_ESYSWAKE,
          wake := true }) ∧
    (lockWord ≠ ticket →
      unlock lockWord ticket wakeOk =
        { lock := lockWord, code := -COZYFS_ETIMEDOUT, wake := false }) := by
  constructor <;> intro h <;> simp [unlock, h]

/-- Witness for C3: a concrete successful release (word 5, ticket 5) and a
concrete stolen-ticket release (word 6, ticket 5). -/
theorem unlock_release_cmpxchg_witness :
    unlock 5 5 true = { lock := 0, code := COZYFS_OK, wake := true } ∧
    unlock 6 5 true = { lock := 6, code := -COZYFS_ETIMEDOUT, wake := false } := by
  constructor
  · have h := (unlock_release_cmpxchg 5 5 true).1 rfl
    simpa using h
  · exact (unlock_release_cmpxchg 6 5 true).2 (by decide)

/-- Counterexample to C4 as stated: on a buffer with backup mode off,
`restore_backup` returns 0 — not the ECORRUPT failure the claim requires, and
its caller `enter_critical_section` surfaces nothing since it only forwards
negative codes — and on a buffer with backup mode on, the byte of
`last_backup_time` (offset 24, after the copy threshold at offset 20) is
overwritten with the inactive half's byte (7) instead of keeping its pre-call
value (5). -/
theorem restore_backup_counterexample :
    (restore_backup bOff).1 = 0 ∧
    (restore_backup bOff).1 ≠ -COZYFS_ECORRUPT ∧
    crashRecoverySurfaces (restore_backup bOff).1 = none ∧
    bOn.bytes RPAGE_LBT_OFF = 5 ∧
    ((restore_backup bOn).2).bytes RPAGE_LBT_OFF = 7 := by
  refine ⟨rfl, by decide, rfl, rfl, rfl⟩

/-- C4 (amended): if backup mode is off, `restore_backup` returns 0 and
changes nothing (no ECORRUPT is surfaced); otherwise it returns 1 after
copying every byte from offset `offsetof(RPage, backup) + sizeof(backup)` = 20
onward of the inactive (second) half over the active (first) half, while only
the bytes before offset 20 — the generation stamp, padding, lock word and
backup flag — keep their pre-call values; `last_backup_time` (offset 24) is
copied like any other non-skipped byte. -/
theorem restore_backup_amended (st : BStore) :
    (st.backup = BACKUP_NO → restore_backup st = (0, st)) ∧
    (st.backup ≠ BACKUP_NO →
      (restore_backup st).1 = 1 ∧
      (∀ i, i < RPAGE_SKIP → ((restore_backup st).2).bytes i = st.bytes i) ∧
      (∀ i, RPAGE_SKIP ≤ i → i < st.tot * 4096 →
        ((restore_backup st).2).bytes i = st.bytes (st.tot * 4096 + i)) ∧
      (∀ i, st.tot * 4096 ≤ i → ((restore_backup st).2).bytes i = st.bytes i) ∧
      ((restore_backup st).2).tot = st.tot ∧
      ((restore_backup st).2).backup = st.backup) := by
  constructor
  · intro h
    simp [restore_backup, h]
  · intro h
    unfold restore_backup
    rw [if_neg h]
    refine ⟨rfl, ?_, ?_, ?_, rfl, rfl⟩
    · intro i hi
      have hc : ¬(RPAGE_SKIP ≤ i ∧ i < st.tot * 4096) := by
        intro hc
        omega
      simp only [hc, if_false]
    · intro i h1 h2
      simp only [h1, h2, and_self, if_true]
    · intro i h1
      have hc : ¬(RPAGE_SKIP ≤ i ∧ i < st.tot * 4096) := by
        intro hc
        omega
      simp only [hc, if_false]

/-- Witness for C4 (amended): the off-mode buffer is returned unchanged with
code 0; the on-mode buffer returns 1, keeps byte 0 and takes byte 20 from the
inactive half. -/
theorem restore_backup_amended_witness :
    restore_backup bOff = (0, bOff) ∧
    (restore_backup bOn).1 = 1 ∧
    ((restore_backup bOn).2).bytes 0 = bOn.bytes 0 ∧
    ((restore_backup bOn).2).bytes 20 = bOn.bytes (1 * 4096 + 20) := by
  refine ⟨(restore_backup_amended bOff).1 rfl,
          ((restore_backup_amended bOn).2 (by decide)).1,
          ((restore_backup_amended bOn).2 (by decide)).2.1 0 (by decide), ?_⟩
  exact ((restore_backup_amended bOn).2 (by decide)).2.2.1 20 (by decide) (by decide)

/-- C5 (code bug): in `stFileF` the root directory holds the regular file "f"
(shown by `find_entity` and its FILE flag), yet `open_` on the path "/f"
returns EISDIR instead of a descriptor: the resolution loop `for (i = 0;
i < pathnum-1; i++)` stops one component short, so the EISDIR test is applied
to the parent directory (here the root) rather than to the entity the path
names, and opening any existing file fails. -/
theorem open_resolves_parent_bug :
    find_entity stFileF 10 stFileF.rootEnt nameF = some (.ent 4096 0) ∧
    (getEnt stFileF (.ent 4096 0)).map (fun e => e.flags) = some ENTITY_FILE ∧
    open_ stFileF 10 (slashByte :: nameF) = .error (-COZYFS_EISDIR) :=
  ⟨rfl, rfl, rfl⟩

/-- C6 (code bug): the root of `stDirA` already holds a link named "a", yet
creating another entity named "a" under it reports success (the
duplicate-name check in `create_entity` is an empty TODO block that falls
through) and appends a second link named "a" — the count of links named "a"
goes from 1 to 2 — instead of failing with EINVAL and leaving the directory
unchanged. -/
theorem create_entity_duplicate_bug :
    find_entity stDirA 10 stDirA.rootEnt nameA = some (.ent 4096 0) ∧
    linksNamed stDirA 4096 nameA = 1 ∧
    createDupCode = COZYFS_OK ∧
    createDupCount = 2 :=
  ⟨rfl, rfl, rfl, rfl⟩

/-- C7 (code bug): removing the existing entry "a" under the root of `stDirA`
does not decrement any refcount or remove any link — the search loop of
`remove_entity` returns the found entity's pointer as the status code (a
copy-paste of `find_entity`'s return), making the decrement-and-swap-remove
code after the loop unreachable and the store unchanged; only the ENOENT
branch for a missing name ("b") behaves as claimed. -/
theorem remove_entity_dead_code_bug :
    remove_entity stDirA 10 stDirA.rootEnt nameA ENTITY_DIR =
      (RemoveRes.ptrReturn (.ent 4096 0), stDirA) ∧
    remove_entity stDirA 10 stDirA.rootEnt nameB ENTITY_DIR =
      (RemoveRes.code (-COZYFS_ENOENT), stDirA) :=
  ⟨rfl, rfl⟩

/-- C9 (code bug): closing the valid descriptor of slot 0 of `stClose`, whose
generation is 0xFFFE, succeeds and leaves the slot with generation 0xFFFF —
the all-ones value the claim requires to be skipped.  The source increments
the 16-bit generation and then compares it with `(u64) -1` = 2^64 - 1, which
a 16-bit value can never equal, so only 0 is ever skipped. -/
theorem close_generation_allones_bug :
    closeResOk = true ∧
    closeResSlot =
      some { used := false, gen := 65535, entity := some (.ent 4096 0), cursor := 0 } :=
  ⟨rfl, rfl⟩

end CozyFS
